import Mathlib

/-!
Verification development for the brandvoice-scaffold pipeline.

This file gives a shallow embedding, in Lean 4, of the parts of the
repository that the verified properties talk about:

* `src/clients/opus_client.py` — the screenplay transcript extractors
  (`get_verbal_transcript`, `get_enhanced_transcript`) and the status
  polling loop (`wait_for_project_completion`);
* `src/utils/json_processor.py` — `parse_video_metadata` and
  `process_json_file` (dedup + sort);
* `src/utils/transcript_extractor.py` — `extract_transcript` and
  `extract_transcripts_parallel`;
* `src/api/server.py` — the `process_videos` background pipeline and the
  `get_progress` snapshot;
* `src/main_json.py` — `process_videos_with_opusclip` and the CLI
  pipeline `process_json_file` (embedded as `main_process_json_file`).

Python strings are embedded as Lean `String`; `str.strip()` is embedded
as `pyStrip` (defined on the character list with `Char.isWhitespace`),
`sep.join(parts)` as `pyJoin`.  Network, file-system and clock effects
are passed in explicitly as environment records: the result of each
external call is a field of the environment, and exceptions raised by
an external call are represented with `Except` (or a dedicated
constructor).  Wall-clock time in the polling loop is represented by
the poll index: with a fixed sleep interval and instantaneous status
calls, the n-th status check happens at elapsed time `n * interval`.
-/

namespace BrandVoice

/-! ## Python string primitives -/

/-- Character-list version of Python `str.strip()`: drop whitespace from
both ends. -/
def pyStripList (l : List Char) : List Char :=
  ((l.dropWhile Char.isWhitespace).reverse.dropWhile Char.isWhitespace).reverse

/-- Python `str.strip()` on the embedded `String` type. -/
def pyStrip (s : String) : String :=
  ⟨pyStripList s.data⟩

/-- Python slicing `s[:n]` (first `n` characters). -/
def strTake (s : String) (n : Nat) : String :=
  ⟨s.data.take n⟩

/-- Python `sep.join(parts)`. -/
def pyJoin (sep : String) : List String → String
  | [] => ""
  | [x] => x
  | x :: xs => x ++ sep ++ pyJoin sep xs

/-! ## opus_client.py — screenplay structures and transcript extraction -/

/-- One screenplay line: a dict with optional `type` and `content`
(`line.get('type')`, `line.get('content', '')`). -/
structure Line where
  type : Option String
  content : String
deriving DecidableEq

/-- One screenplay chapter: `chapter.get('summary', '')` and
`chapter.get('lines', [])`. -/
structure Chapter where
  summary : String
  lines : List Line
deriving DecidableEq

/-- A screenplay dict (`{'chapters': [...]}`).  A missing or falsy
(empty-dict) screenplay is represented by `Option Screenplay = none` at
the use sites. -/
structure Screenplay where
  chapters : List Chapter
deriving DecidableEq

/-- The verbal parts collected by `get_verbal_transcript`: for each
chapter, for each line of type `'verbal'`, the stripped content when it
is non-empty. -/
def verbalParts (chapters : List Chapter) : List String :=
  (chapters.map (fun ch =>
    ch.lines.filterMap (fun l =>
      if l.type = some "verbal" then
        let content := pyStrip l.content
        if content ≠ "" then some content else none
      else none))).flatten

/-- `get_verbal_transcript` from `src/clients/opus_client.py`: join the
verbal parts with no separator (`''.join(verbal_parts)`). -/
def get_verbal_transcript (chapters : List Chapter) : String :=
  if chapters.isEmpty then ""
  else pyJoin "" (verbalParts chapters)

/-- The parts collected by `get_enhanced_transcript` for one chapter:
the `[Visual: ...]`-wrapped stripped summary when non-empty, then for
each line (in order) the stripped content — plain for `'verbal'` lines,
`[Visual: ...]`-wrapped for `'visual'` lines — skipping lines whose
stripped content is empty. -/
def enhancedChapterParts (ch : Chapter) : List String :=
  (if pyStrip ch.summary ≠ "" then ["[Visual: " ++ pyStrip ch.summary ++ "]"] else [])
  ++ ch.lines.filterMap (fun l =>
      let content := pyStrip l.content
      if content = "" then none
      else if l.type = some "verbal" then some content
      else if l.type = some "visual" then some ("[Visual: " ++ content ++ "]")
      else none)

/-- `get_enhanced_transcript` from `src/clients/opus_client.py`: join
all parts with single spaces (`' '.join(parts)`). -/
def get_enhanced_transcript (chapters : List Chapter) : String :=
  if chapters.isEmpty then ""
  else pyJoin " " ((chapters.map enhancedChapterParts).flatten)

/-- `extract_transcript_from_screenplay`: empty on a falsy screenplay,
verbal transcript of its chapters otherwise. -/
def extract_transcript_from_screenplay (sp : Option Screenplay) : String :=
  match sp with
  | none => ""
  | some s => get_verbal_transcript s.chapters

/-- `extract_enhanced_transcript_from_screenplay`: empty on a falsy
screenplay, enhanced transcript of its chapters otherwise. -/
def extract_enhanced_transcript_from_screenplay (sp : Option Screenplay) : String :=
  match sp with
  | none => ""
  | some s => get_enhanced_transcript s.chapters

/-! ## opus_client.py — wait_for_project_completion -/

/-- Outcome of one `get_project_status` call: either a response whose
`stage` field is `s` (`status.get('stage', 'unknown')`), or a raised
exception. -/
inductive PollResult where
  | stage (s : String)
  | raises
deriving DecidableEq

/-- The failure terminal stages of `wait_for_project_completion`. -/
def failStages : List String := ["FAILED", "ERROR", "STALLED"]

/-- Default `max_wait_seconds` of `wait_for_project_completion`. -/
def default_max_wait_seconds : Nat := 600

/-- Default `poll_interval` of `wait_for_project_completion`. -/
def default_poll_interval : Nat := 10

/-- The polling loop of `wait_for_project_completion`, with the n-th
status check happening at elapsed time `n * interval` (status calls are
instantaneous; `time.sleep(poll_interval)` advances the clock by
`interval`, on the exception path exactly as on the still-processing
path).  The loop guard `time.time() - start_time < max_wait_seconds` is
checked before every poll.  `fuel` bounds the recursion; with
`interval ≥ 1` a fuel of `maxWait + 1` is never exhausted. -/
def waitPoll (poll : Nat → PollResult) (maxWait interval : Nat) : Nat → Nat → Bool
  | _, 0 => false
  | n, fuel + 1 =>
    if n * interval < maxWait then
      match poll n with
      | .stage s =>
        if s = "COMPLETE" then true
        else if s ∈ failStages then false
        else waitPoll poll maxWait interval (n + 1) fuel
      | .raises => waitPoll poll maxWait interval (n + 1) fuel
    else false

/-- `wait_for_project_completion` from `src/clients/opus_client.py`:
run the polling loop from elapsed time 0. -/
def wait_for_project_completion (poll : Nat → PollResult) (maxWait interval : Nat) : Bool :=
  waitPoll poll maxWait interval 0 (maxWait + 1)

/-! ## json_processor.py — raw items and the canonical video record

Raw TikTok items are Python dicts; the fields read by
`parse_video_metadata` are embedded as record fields, with `Option` for
keys that may be absent (`dict.get` defaults are applied at the read
site, as in the source).  Keys the source never reads are not
represented. -/

/-- `item['stats']` (missing stats dict ≡ all counters absent). -/
structure RawStats where
  playCount : Option Int
  diggCount : Option Int
  commentCount : Option Int
  shareCount : Option Int
deriving DecidableEq

/-- One entry of `textExtra` (`tag.get('hashtagName', '')`). -/
structure TextExtraTag where
  hashtagName : Option String
deriving DecidableEq

/-- One entry of `challenges` (`c.get('title', '')`). -/
structure Challenge where
  title : String
deriving DecidableEq

/-- One entry of `contents` (`content.get('desc', ...)`,
`content.get('textExtra', ...)`). -/
structure ContentsEntry where
  desc : Option String
  textExtra : Option (List TextExtraTag)
deriving DecidableEq

/-- `item['video']`: `subtitleInfos` (caption availability is its
truthiness) and `duration`. -/
structure RawVideoMeta where
  subtitleInfos : List String
  duration : Option Int
deriving DecidableEq

/-- One raw item of `itemList`, with exactly the keys
`parse_video_metadata` reads.  `id` is `item.get('id', '')` before
`str(...)`; an absent key yields the empty identifier.  Absent
`challenges` / `textExtra` behave as empty lists. -/
structure RawItem where
  id : Option String
  authorUniqueId : Option String
  desc : String
  textExtra : List TextExtraTag
  contents : List ContentsEntry
  challenges : List Challenge
  stats : RawStats
  video : RawVideoMeta
  createTime : Option Int
deriving DecidableEq

/-- The canonical video record built by `parse_video_metadata` and
threaded through the pipeline.  `transcript`, `transcript_source` and
`project_id` model dict keys that later stages may add (`none` =
absent). -/
structure VideoRec where
  video_id : String
  video_url : String
  description : String
  hashtags : List String
  view_count : Int
  like_count : Int
  comment_count : Int
  share_count : Int
  has_captions : Bool
  duration : Int
  create_time : Int
  transcript : Option String
  transcript_source : Option String
  project_id : Option String
deriving DecidableEq

/-- The body of the per-item loop of `parse_video_metadata` (the
`try`-block; no embedded operation can raise, so the `except` branch is
unreachable in the model). -/
def parse_item (item : RawItem) : VideoRec :=
  let video_id := item.id.getD ""
  let username := item.authorUniqueId.getD "unknown"
  let description0 := item.desc
  let text_extra0 := item.textExtra
  let description :=
    match item.contents.head? with
    | some c => c.desc.getD description0
    | none => description0
  let text_extra :=
    match item.contents.head? with
    | some c => c.textExtra.getD text_extra0
    | none => text_extra0
  let hashtags0 := (item.challenges.map Challenge.title).filter (fun t => t ≠ "")
  let text_hashtags := text_extra.filterMap (fun t =>
    match t.hashtagName with
    | some h => if h ≠ "" then some h else none
    | none => none)
  let hashtags := hashtags0 ++ text_hashtags.filter (fun h => h ∉ hashtags0)
  { video_id := video_id
    video_url := "https://www.tiktok.com/@" ++ username ++ "/video/" ++ video_id
    description := description
    hashtags := hashtags
    view_count := item.stats.playCount.getD 0
    like_count := item.stats.diggCount.getD 0
    comment_count := item.stats.commentCount.getD 0
    share_count := item.stats.shareCount.getD 0
    has_captions := !item.video.subtitleInfos.isEmpty
    duration := item.video.duration.getD 0
    create_time := item.createTime.getD 0
    transcript := none
    transcript_source := none
    project_id := none }

/-- A raw JSON document as seen by `parse_video_metadata`: an optional
top-level `itemList`, an optional `data.itemList`, and the sorted
distinct identifiers (of length ≥ 15) that the recursive
`extract_video_ids` scan would find, used only on the fallback path. -/
structure RawDoc where
  itemList : Option (List RawItem)
  dataItemList : Option (List RawItem)
  fallbackIds : List String
deriving DecidableEq

/-- The item list `parse_video_metadata` locates: the top-level
`itemList` if the key is present, else `data.itemList`. -/
def locatedItemList (doc : RawDoc) : Option (List RawItem) :=
  match doc.itemList with
  | some l => some l
  | none => doc.dataItemList

/-- The fallback records (`{'video_id': vid, 'video_url': ...}`); the
keys the fallback dicts lack are given the values their
`dict.get` defaults produce downstream. -/
def fallbackRecords (doc : RawDoc) : List VideoRec :=
  doc.fallbackIds.map (fun vid =>
    { video_id := vid
      video_url := "https://www.tiktok.com/video/" ++ vid
      description := ""
      hashtags := []
      view_count := 0
      like_count := 0
      comment_count := 0
      share_count := 0
      has_captions := false
      duration := 0
      create_time := 0
      transcript := none
      transcript_source := none
      project_id := none })

/-- `parse_video_metadata` from `src/utils/json_processor.py`: parse
each item of the located item list; if no (non-empty) item list is
found, fall back to bare identifier extraction. -/
def parse_video_metadata (doc : RawDoc) : List VideoRec :=
  match locatedItemList doc with
  | some l => if l.isEmpty then fallbackRecords doc else l.map parse_item
  | none => fallbackRecords doc

/-- The dedup loop of `process_json_file`: keep a video when its
`video_id` is non-empty and not seen yet (first occurrence wins). -/
def dedupFirst (seen : List String) : List VideoRec → List VideoRec
  | [] => []
  | v :: vs =>
    if v.video_id ≠ "" ∧ v.video_id ∉ seen then
      v :: dedupFirst (v.video_id :: seen) vs
    else dedupFirst seen vs

/-- One insertion step of the stable descending-by-view-count sort:
`v` is placed before the first element whose view count does not
exceed `v`'s, so elements with equal view counts keep their original
relative order — exactly the guarantee of Python's stable
`list.sort(key=..., reverse=True)`. -/
def insertDesc (v : VideoRec) : List VideoRec → List VideoRec
  | [] => [v]
  | u :: us => if v.view_count < u.view_count then u :: insertDesc v us else v :: u :: us

/-- Stable sort by descending view count
(`unique_videos.sort(key=lambda x: x.get('view_count', 0), reverse=True)`). -/
def sortByViewDesc : List VideoRec → List VideoRec
  | [] => []
  | v :: vs => insertDesc v (sortByViewDesc vs)

/-- `process_json_file` from `src/utils/json_processor.py`.  The `doc`
argument is `none` when `load_json_file` produced a falsy document
(missing file, invalid JSON, or empty object). -/
def process_json_file (doc : Option RawDoc) : List VideoRec :=
  match doc with
  | none => []
  | some d =>
    let videos := parse_video_metadata d
    if videos.isEmpty then []
    else sortByViewDesc (dedupFirst [] videos)

/-! ## transcript_extractor.py — hybrid caption/OpusClip extraction -/

/-- The external results one `extract_transcript` call can observe:
`captions` is what `scraper.get_video_captions` returns (an optional
string), `opus` is what `opus_client.get_transcript_from_video` returns
(`Optional[str]`; every internal failure already surfaces as `None`). -/
structure ExtractEnv where
  captions : Option String
  opus : Option String
deriving DecidableEq

/-- The OpusClip fallback tail of `extract_transcript`. -/
def opusFallback (video : VideoRec) (env : ExtractEnv) : VideoRec :=
  match env.opus with
  | some t =>
    if (pyStrip t).length > 0 ∧ t ≠ "" then
      { video with transcript := some t, transcript_source := some "opusclip" }
    else
      { video with transcript := some "", transcript_source := some "none" }
  | none => { video with transcript := some "", transcript_source := some "none" }

/-- `extract_transcript` from `src/utils/transcript_extractor.py`:
TikTok captions first (when `has_captions` and the captions are truthy
with non-blank strip), OpusClip otherwise. -/
def extract_transcript (video : VideoRec) (env : ExtractEnv) : VideoRec :=
  if video.has_captions then
    match env.captions with
    | some c =>
      if (pyStrip c).length > 0 ∧ c ≠ "" then
        { video with transcript := some c, transcript_source := some "tiktok_captions" }
      else opusFallback video env
    | none => opusFallback video env
  else opusFallback video env

/-- How one gathered task of `extract_transcripts_parallel` resolves:
either `extract_transcript` runs with some environment, or the task
raises and `asyncio.gather(..., return_exceptions=True)` hands back the
exception. -/
inductive ItemRun where
  | raises
  | runs (env : ExtractEnv)
deriving DecidableEq

/-- The per-item result handling in `extract_transcripts_parallel`: an
exception result turns into the original video with an empty transcript
and `'error'` provenance. -/
def runItem (video : VideoRec) : ItemRun → VideoRec
  | .raises => { video with transcript := some "", transcript_source := some "error" }
  | .runs env => extract_transcript video env

/-- `extract_transcripts_parallel` from
`src/utils/transcript_extractor.py`.  The batch loop partitions the
input in order and concatenates the per-batch results in order, so the
accumulated `results` list equals the direct map; the final filter
drops videos whose transcript is blank after strip
(`v.get('transcript', '').strip()`). -/
def extract_transcripts_parallel (items : List (VideoRec × ItemRun)) : List VideoRec :=
  let results := items.map (fun p => runItem p.1 p.2)
  results.filter (fun v => pyStrip (v.transcript.getD "") ≠ "")

/-! ## server.py — the process_videos background pipeline -/

/-- The `steps` sub-dict of a per-video status entry. -/
structure Steps where
  metadata : String
  submission : String
  transcript : String
  csv : String
deriving DecidableEq

/-- One per-item status entry of `job['videos']`. -/
structure VideoStatus where
  id : String
  title : String
  status : String
  currentStep : Option String
  description : String
  viewCount : Int
  likeCount : Int
  commentCount : Int
  duration : Int
  steps : Steps
  transcript : Option String
  transcriptLength : Option Nat
  opusProjectId : Option String
  clipsGenerated : Option Nat
deriving DecidableEq

/-- The configuration fields of `ProcessConfig` that `process_videos`
reads. -/
structure ProcessConfig where
  videosToProcess : Nat
  batchSize : Nat
  parameterMode : String
  language : String
  maxChar : Nat
  style : String
deriving DecidableEq

/-- One exportable clip, as read by `wait_and_extract`
(`first_clip.get('screenplay', {})`; a missing or falsy screenplay is
`none`). -/
structure Clip where
  screenplay : Option Screenplay
deriving DecidableEq

/-- Outcome of one `submit_project` call: a response carrying a
`projectId`, a response without one, or a raised exception. -/
inductive SubmitOutcome where
  | ok (projectId : String)
  | noId
  | raises (msg : String)
deriving DecidableEq

deriving instance DecidableEq for Except

/-- The external results one `wait_and_extract` task can observe:
`completed` is the `wait_for_project_completion` outcome (or a raised
exception), `clips` the `get_exportable_clips` result (or a raised
exception). -/
structure WaitRun where
  completed : Except String Bool
  clips : Except String (List Clip)
deriving DecidableEq

/-- The environment of one `process_videos` run, keyed by `video_id`:
the parsed record list, the previously-processed identifiers, and the
external-call outcomes of the submission and polling stages. -/
structure ServerEnv where
  apiKeyPresent : Bool
  parsedVideos : List VideoRec
  existingIds : List String
  submit : String → SubmitOutcome
  waitRun : String → WaitRun

/-- A failed per-item update inside `wait_and_extract`: mark the status
failed with the given step description. -/
def failStatus (st : VideoStatus) (step : String) : VideoStatus :=
  { st with status := "failed"
            steps := { st.steps with transcript := "failed" }
            currentStep := some step }

/-- `wait_and_extract` from `src/api/server.py` (the inner coroutine of
`process_videos`): wait for completion, fetch exportable clips, extract
the enhanced transcript from the first clip's screenplay; any raised
exception is caught and turned into a failed per-item status.  Returns
the successful record (if any) together with the final mutated status
entry. -/
def wait_and_extract (video : VideoRec) (st : VideoStatus) (run : WaitRun) :
    Option VideoRec × VideoStatus :=
  match video.project_id with
  | none => (none, st)
  | some _pid =>
    let st := { st with currentStep := some "Waiting for OpusClip processing"
                        steps := { st.steps with transcript := "processing" } }
    match run.completed with
    | .error e => (none, failStatus st ("Error: " ++ strTake e 50))
    | .ok false => (none, failStatus st "Timeout waiting for OpusClip")
    | .ok true =>
      let st := { st with currentStep := some "Extracting transcript from clips" }
      match run.clips with
      | .error e => (none, failStatus st ("Error: " ++ strTake e 50))
      | .ok [] => (none, failStatus st "No clips found")
      | .ok (first :: rest) =>
        let st := { st with clipsGenerated := some (rest.length + 1) }
        match first.screenplay with
        | none => (none, failStatus st "No screenplay found")
        | some sp =>
          let transcript := get_enhanced_transcript sp.chapters
          if transcript ≠ "" then
            (some { video with transcript := some transcript
                               transcript_source := some "opusclip" },
             { st with transcript := some transcript
                       transcriptLength := some transcript.length
                       steps := { st.steps with transcript := "completed" }
                       currentStep := some "Transcript extracted" })
          else (none, failStatus st "Empty transcript")

/-- The per-video body of the submission loop (STEP 3 of
`process_videos`): build the initial status entry, submit, and either
attach the project id or mark the submission failed. -/
def submitStage (env : ServerEnv) (video : VideoRec) : VideoStatus × Option VideoRec :=
  let st0 : VideoStatus :=
    { id := video.video_id
      title := strTake video.description 50
      status := "processing"
      currentStep := some "Submitting to OpusClip"
      description := video.description
      viewCount := video.view_count
      likeCount := video.like_count
      commentCount := video.comment_count
      duration := video.duration
      steps := { metadata := "completed", submission := "processing",
                 transcript := "pending", csv := "pending" }
      transcript := none
      transcriptLength := none
      opusProjectId := none
      clipsGenerated := none }
  match env.submit video.video_id with
  | .ok pid =>
    ({ st0 with opusProjectId := some pid
                steps := { st0.steps with submission := "completed" } },
     some { video with project_id := some pid })
  | .noId =>
    ({ st0 with status := "failed"
                steps := { st0.steps with submission := "failed" }
                currentStep := some "Failed to submit" }, none)
  | .raises msg =>
    ({ st0 with status := "failed"
                steps := { st0.steps with submission := "failed" }
                currentStep := some ("Error: " ++ msg) }, none)

/-- Submission stage followed (for submitted records) by that record's
`wait_and_extract` task.  The gathered tasks each mutate only their own
status entry, so the per-item outcome is a pure function of the item.
Batching in the submission loop partitions `new_videos` in order, so
`job['videos']` ends up in `new_videos` order. -/
def processOne (env : ServerEnv) (video : VideoRec) : VideoStatus × Option VideoRec :=
  let (st1, sub) := submitStage env video
  match sub with
  | none => (st1, none)
  | some v =>
    let (res, st2) := wait_and_extract v st1 (env.waitRun v.video_id)
    (st2, res)

/-- The post-gather pass over `job['videos']` (marking every entry
whose transcript step completed as a completed item). -/
def finishStatus (st : VideoStatus) : VideoStatus :=
  if st.steps.transcript = "completed" then
    { st with status := "completed"
              currentStep := none
              steps := { st.steps with csv := "completed" } }
  else st

/-- One row of the generated CSV (`CSVGenerator.prepare_row`). -/
structure CsvRow where
  video_id : String
  video_url : String
  transcript : String
  description : String
  hashtags : String
  view_count : Int
  like_count : Int
  comment_count : Int
  share_count : Int
  duration : Int
  transcript_source : String
deriving DecidableEq

/-- `CSVGenerator.prepare_row`: project a video dict onto the CSV
columns, with the `dict.get` defaults of the source. -/
def prepare_row (video : VideoRec) : CsvRow :=
  { video_id := video.video_id
    video_url := video.video_url
    transcript := video.transcript.getD ""
    description := video.description
    hashtags := pyJoin ", " video.hashtags
    view_count := video.view_count
    like_count := video.like_count
    comment_count := video.comment_count
    share_count := video.share_count
    duration := video.duration
    transcript_source := video.transcript_source.getD "unknown" }

/-- `JSONLConverter.convert_csv_to_jsonl`, restricted to the number of
examples it writes and returns: one training example per CSV row whose
transcript is non-blank after strip (rows without transcript are
skipped). -/
def convert_csv_to_jsonl_count (rows : List CsvRow) : Nat :=
  (rows.filter (fun r => pyStrip r.transcript ≠ "")).length

/-- The `job['summary']` dict (the elapsed-time string is not
modelled; `trainingExamples` is present only in the full-completion
summary). -/
structure Summary where
  processed : Nat
  skipped : Nat
  trainingExamples : Option Nat
deriving DecidableEq

/-- The per-run `jobs_store` entry, after `process_videos` finished.
`csvRows` and `jsonlCount` record the contents of the artifacts the run
wrote (none = no file written). -/
structure Job where
  status : String
  error : Option String
  progress : Nat
  currentPhase : String
  videos : List VideoStatus
  summary : Option Summary
  csvFilename : Option String
  jsonlFilename : Option String
  csvRows : Option (List CsvRow)
  jsonlCount : Option Nat
deriving DecidableEq

/-- The `except`-branch of `process_videos`: mark the job errored and
put the message into both the `error` field and the phase label. -/
def errorJob (progress : Nat) (videos : List VideoStatus) (msg : String) : Job :=
  { status := "error"
    error := some msg
    progress := progress
    currentPhase := "Error: " ++ msg
    videos := videos
    summary := none
    csvFilename := none
    jsonlFilename := none
    csvRows := none
    jsonlCount := none }

/-- STEP 1's count limit: `videos[:videosToProcess]` when the
configured count is truthy and smaller than the parsed list. -/
def limitVideos (cfg : ProcessConfig) (videos0 : List VideoRec) : List VideoRec :=
  if cfg.videosToProcess ≠ 0 ∧ cfg.videosToProcess < videos0.length then
    videos0.take cfg.videosToProcess
  else videos0

/-- STEP 2's dedup filter: the videos not yet present in prior output. -/
def newVideos (env : ServerEnv) (videos : List VideoRec) : List VideoRec :=
  videos.filter (fun v => v.video_id ∉ env.existingIds)

/-- STEP 2's dedup filter: the videos excluded as already processed. -/
def skippedVideos (env : ServerEnv) (videos : List VideoRec) : List VideoRec :=
  videos.filter (fun v => v.video_id ∈ env.existingIds)

/-- The early-completion job state when every video was already
processed. -/
def allDupJob (skippedCount : Nat) : Job :=
  { status := "completed", error := none, progress := 100
    currentPhase := "Complete - All videos already processed"
    videos := []
    summary := some { processed := 0, skipped := skippedCount, trainingExamples := none }
    csvFilename := none, jsonlFilename := none
    csvRows := none, jsonlCount := none }

/-- The job state of a fully completed run (STEP 5 CSV, STEP 7 JSONL,
STEP 8 summary). -/
def completedJob (statuses : List VideoStatus) (skippedCount : Nat)
    (vwt : List VideoRec) : Job :=
  { status := "completed", error := none, progress := 100
    currentPhase := "Complete"
    videos := statuses
    summary := some { processed := vwt.length, skipped := skippedCount,
                      trainingExamples := some (convert_csv_to_jsonl_count (vwt.map prepare_row)) }
    csvFilename := some "creator.csv", jsonlFilename := some "creator.jsonl"
    csvRows := some (vwt.map prepare_row)
    jsonlCount := some (convert_csv_to_jsonl_count (vwt.map prepare_row)) }

/-- STEPs 3–8 of `process_videos`, applied to the deduplicated new
videos: submit everything (STEP 3, fatal when nothing is submitted),
gather the `wait_and_extract` results (STEP 4, fatal when nothing is
extracted), then finish the statuses and write the artifacts. -/
def processSubmitted (env : ServerEnv) (new_videos : List VideoRec)
    (skippedCount : Nat) : Job :=
  if ((new_videos.map (processOne env)).filterMap Prod.snd).isEmpty then
    if (new_videos.filterMap (fun v => (submitStage env v).2)).isEmpty then
      errorJob 15 ((new_videos.map (processOne env)).map Prod.fst)
        "No projects submitted successfully"
    else
      errorJob 20 ((new_videos.map (processOne env)).map Prod.fst)
        "No transcripts extracted successfully"
  else
    completedJob
      (((new_videos.map (processOne env)).map Prod.fst).map finishStatus)
      skippedCount
      ((new_videos.map (processOne env)).filterMap Prod.snd)

/-- `process_videos` from `src/api/server.py`, as a function from the
run configuration and the external-world outcomes to the final job
state.  The AI-analysis step (STEP 6) only adjusts the JSONL prompt
parameters and swallows its own failures, so it does not affect any
field of the final job state that is modelled here; timestamped file
names are modelled by fixed names. -/
def process_videos (cfg : ProcessConfig) (env : ServerEnv) : Job :=
  if !env.apiKeyPresent then
    errorJob 0 [] "OPUSCLIP_API_KEY not found in environment variables"
  else if env.parsedVideos.isEmpty then
    errorJob 5 [] "No videos found in JSON file"
  else if (newVideos env (limitVideos cfg env.parsedVideos)).isEmpty then
    allDupJob (skippedVideos env (limitVideos cfg env.parsedVideos)).length
  else
    processSubmitted env (newVideos env (limitVideos cfg env.parsedVideos))
      (skippedVideos env (limitVideos cfg env.parsedVideos)).length

/-- The fields of the `/api/progress/{job_id}` response that come from
the job entry. -/
structure ProgressSnapshot where
  status : String
  progress : Nat
  currentPhase : String
  videos : List VideoStatus
  summary : Option Summary
  csvFilename : Option String
  jsonlFilename : Option String
deriving DecidableEq

/-- `get_progress` from `src/api/server.py`: the snapshot handed to the
caller for a stored job. -/
def get_progress (job : Job) : ProgressSnapshot :=
  { status := job.status
    progress := job.progress
    currentPhase := job.currentPhase
    videos := job.videos
    summary := job.summary
    csvFilename := job.csvFilename
    jsonlFilename := job.jsonlFilename }

/-! ## main_json.py — the CLI pipeline -/

/-- The environment of one `main_json.py` run, keyed by `video_id`: the
loaded document and the external-call outcomes of the submission and
polling stages. -/
structure MainEnv where
  doc : Option RawDoc
  channelName : String
  submit : String → SubmitOutcome
  waitRun : String → WaitRun

/-- The inner `wait_and_extract` of `process_videos_with_opusclip` in
`src/main_json.py`: like the server variant but without status-entry
bookkeeping, and extracting the plain verbal transcript
(`extract_transcript_from_screenplay`).  Any raised exception is caught
and yields `None`. -/
def main_wait_and_extract (video : VideoRec) (run : WaitRun) : Option VideoRec :=
  match video.project_id with
  | none => none
  | some _pid =>
    match run.completed with
    | .error _ => none
    | .ok false => none
    | .ok true =>
      match run.clips with
      | .error _ => none
      | .ok [] => none
      | .ok (first :: _) =>
        match first.screenplay with
        | none => none
        | some sp =>
          let transcript := get_verbal_transcript sp.chapters
          if transcript ≠ "" then
            some { video with transcript := some transcript
                              transcript_source := some "opusclip" }
          else none

/-- The submission loop of `process_videos_with_opusclip`: batching
partitions the input in order, so the accumulated submission list
equals the direct filterMap; failed or handle-less submissions are
dropped. -/
def mainSubmissions (env : MainEnv) (videos : List VideoRec) : List VideoRec :=
  videos.filterMap (fun v =>
    match env.submit v.video_id with
    | .ok pid => some { v with project_id := some pid }
    | .noId => none
    | .raises _ => none)

/-- `process_videos_with_opusclip` from `src/main_json.py`: submit
everything, bail out with an empty result when nothing was submitted,
otherwise gather the per-record `wait_and_extract` results and keep the
successes. -/
def process_videos_with_opusclip (env : MainEnv) (videos : List VideoRec) : List VideoRec :=
  let project_submissions := mainSubmissions env videos
  if project_submissions.isEmpty then []
  else (project_submissions.map (fun v => main_wait_and_extract v (env.waitRun v.video_id))).filterMap id

/-- The observable outcome of one CLI run: the returned CSV path (`""`
on failure) and the artifacts written (none = no file written). -/
structure MainRunResult where
  csvPath : String
  csvRows : Option (List CsvRow)
  jsonlCount : Option Nat
deriving DecidableEq

/-- The `--count` truncation of the CLI pipeline (`count` falsy or not
smaller than the list leaves the list unchanged). -/
def mainLimit (count : Option Nat) (videos0 : List VideoRec) : List VideoRec :=
  match count with
  | some c => if c ≠ 0 ∧ c < videos0.length then videos0.take c else videos0
  | none => videos0

/-- `process_json_file` from `src/main_json.py` (the CLI pipeline;
named `main_process_json_file` to distinguish it from the
`json_processor` function it calls).  LLM analysis and the interactive
confirmation only choose JSONL prompt parameters and never fail the
run; timestamped file names are modelled by the channel name. -/
def main_process_json_file (count : Option Nat) (env : MainEnv) : MainRunResult :=
  if (process_json_file env.doc).isEmpty then
    { csvPath := "", csvRows := none, jsonlCount := none }
  else if (process_videos_with_opusclip env
      (mainLimit count (process_json_file env.doc))).isEmpty then
    { csvPath := "", csvRows := none, jsonlCount := none }
  else
    { csvPath := "output/" ++ env.channelName ++ ".csv"
      csvRows := some ((process_videos_with_opusclip env
        (mainLimit count (process_json_file env.doc))).map prepare_row)
      jsonlCount := some (convert_csv_to_jsonl_count
        ((process_videos_with_opusclip env
          (mainLimit count (process_json_file env.doc))).map prepare_row)) }

/-! ## Lemmas about the polling loop -/

/-- A status observation on which the polling loop stops: the success
stage or one of the failure stages.  A raised exception never stops the
loop. -/
def isTerminal : PollResult → Bool
  | .stage s => decide (s = "COMPLETE" ∨ s ∈ failStages)
  | .raises => false

theorem waitPoll_timeout (poll : Nat → PollResult) (maxWait interval : Nat)
    (hnt : ∀ m, m * interval < maxWait → isTerminal (poll m) = false) :
    ∀ fuel n, maxWait ≤ (n + fuel) * interval →
      waitPoll poll maxWait interval n fuel = false := by
  intro fuel
  induction fuel with
  | zero => intro n _; rfl
  | succ fuel ih =>
    intro n hble
    unfold waitPoll
    by_cases hlt : n * interval < maxWait
    · simp only [hlt, if_true]
      have hterm := hnt n hlt
      cases hpoll : poll n with
      | stage s =>
        rw [hpoll] at hterm
        simp only [isTerminal, decide_eq_false_iff_not, not_or] at hterm
        simp only [hterm.1, hterm.2, if_false, ite_false]
        exact ih (n + 1) (by rw [show n + 1 + fuel = n + (fuel + 1) from by omega]; exact hble)
      | raises =>
        exact ih (n + 1) (by rw [show n + 1 + fuel = n + (fuel + 1) from by omega]; exact hble)
    · simp [hlt]

theorem waitPoll_first_terminal (poll : Nat → PollResult) (maxWait interval : Nat)
    (h1 : 1 ≤ interval) (k : Nat) (hk : k * interval < maxWait)
    (hprev : ∀ m, m < k → isTerminal (poll m) = false)
    (hterm : isTerminal (poll k) = true) :
    ∀ fuel n, n ≤ k → k - n < fuel →
      waitPoll poll maxWait interval n fuel =
        (match poll k with
         | .stage s => s == "COMPLETE"
         | .raises => false) := by
  intro fuel
  induction fuel with
  | zero => intro n _ h; omega
  | succ fuel ih =>
    intro n hnk hfuel
    unfold waitPoll
    rcases Nat.lt_or_ge n k with hlt | hge
    · have hnlt : n * interval < maxWait := by
        have : (n + 1) * interval ≤ k * interval :=
          Nat.mul_le_mul_right interval hlt
        have : n * interval + interval ≤ k * interval := by
          simpa [Nat.succ_mul] using this
        omega
      simp only [hnlt, if_true]
      have hnt := hprev n hlt
      cases hpoll : poll n with
      | stage s =>
        rw [hpoll] at hnt
        simp only [isTerminal, decide_eq_false_iff_not, not_or] at hnt
        simp only [hnt.1, hnt.2, if_false, ite_false]
        exact ih (n + 1) (by omega) (by omega)
      | raises =>
        exact ih (n + 1) (by omega) (by omega)
    · have hnk' : n = k := Nat.le_antisymm hnk hge
      subst hnk'
      simp only [hk, if_true]
      cases hpoll : poll n with
      | stage s =>
        by_cases hc : s = "COMPLETE"
        · simp [hc]
        · have hf : s ∈ failStages := by
            rw [hpoll] at hterm
            simp only [isTerminal, decide_eq_true_eq] at hterm
            rcases hterm with h | h
            · exact absurd h hc
            · exact h
          simp [hc, hf]
      | raises =>
        rw [hpoll] at hterm
        simp [isTerminal] at hterm

/-! ## Claim C3 -/

/-- Claim C3: for every job handle, the completion poll (default
interval 10 s, default timeout 600 s) returns success when a poll
observes the `'COMPLETE'` stage, returns failure when a poll observes
one of `'FAILED'`/`'ERROR'`/`'STALLED'` (by returning `false` rather
than raising, so sibling tasks are unaffected), and returns failure
once the elapsed time reaches the timeout with no terminal stage
observed. -/
theorem c3_wait_for_project_completion_outcomes
    (poll : Nat → PollResult) (maxWait interval : Nat) (h1 : 1 ≤ interval) :
    (default_max_wait_seconds = 600 ∧ default_poll_interval = 10)
    ∧ (∀ k, k * interval < maxWait → poll k = .stage "COMPLETE" →
        (∀ m, m < k → isTerminal (poll m) = false) →
        wait_for_project_completion poll maxWait interval = true)
    ∧ (∀ k s, k * interval < maxWait → poll k = .stage s → s ∈ failStages →
        (∀ m, m < k → isTerminal (poll m) = false) →
        wait_for_project_completion poll maxWait interval = false)
    ∧ ((∀ m, m * interval < maxWait → isTerminal (poll m) = false) →
        wait_for_project_completion poll maxWait interval = false) := by
  refine ⟨⟨rfl, rfl⟩, ?_, ?_, ?_⟩
  · intro k hk hc hprev
    have hkle : k ≤ k * interval := Nat.le_mul_of_pos_right k (by omega)
    have hterm : isTerminal (poll k) = true := by
      rw [hc]; rfl
    have := waitPoll_first_terminal poll maxWait interval h1 k hk hprev hterm
      (maxWait + 1) 0 (Nat.zero_le k) (by omega)
    rw [wait_for_project_completion, this, hc]
    rfl
  · intro k s hk hs hmem hprev
    have hkle : k ≤ k * interval := Nat.le_mul_of_pos_right k (by omega)
    have hterm : isTerminal (poll k) = true := by
      rw [hs]
      simp only [isTerminal, decide_eq_true_eq]
      exact Or.inr hmem
    have hne : s ≠ "COMPLETE" := by
      intro h; subst h; simp [failStages] at hmem
    have := waitPoll_first_terminal poll maxWait interval h1 k hk hprev hterm
      (maxWait + 1) 0 (Nat.zero_le k) (by omega)
    rw [wait_for_project_completion, this, hs]
    simpa using hne
  · intro hnt
    have hfle : maxWait ≤ (0 + (maxWait + 1)) * interval := by
      rw [Nat.zero_add]
      have : maxWait + 1 ≤ (maxWait + 1) * interval :=
        Nat.le_mul_of_pos_right (maxWait + 1) (by omega)
      omega
    exact waitPoll_timeout poll maxWait interval hnt (maxWait + 1) 0 hfle

/-- Witness for C3: a service that reports a non-terminal stage on the
first poll and `'COMPLETE'` on the second poll, with the default
interval and timeout. -/
theorem c3_wait_for_project_completion_outcomes_witness :
    1 ≤ 10
    ∧ ((default_max_wait_seconds = 600 ∧ default_poll_interval = 10)
    ∧ (∀ k, k * 10 < 600 →
        (fun n => if n = 0 then PollResult.stage "PROCESSING" else .stage "COMPLETE") k
          = .stage "COMPLETE" →
        (∀ m, m < k →
          isTerminal ((fun n => if n = 0 then PollResult.stage "PROCESSING" else .stage "COMPLETE") m) = false) →
        wait_for_project_completion
          (fun n => if n = 0 then PollResult.stage "PROCESSING" else .stage "COMPLETE") 600 10 = true)
    ∧ (∀ k s, k * 10 < 600 →
        (fun n => if n = 0 then PollResult.stage "PROCESSING" else .stage "COMPLETE") k = .stage s →
        s ∈ failStages →
        (∀ m, m < k →
          isTerminal ((fun n => if n = 0 then PollResult.stage "PROCESSING" else .stage "COMPLETE") m) = false) →
        wait_for_project_completion
          (fun n => if n = 0 then PollResult.stage "PROCESSING" else .stage "COMPLETE") 600 10 = false)
    ∧ ((∀ m, m * 10 < 600 →
        isTerminal ((fun n => if n = 0 then PollResult.stage "PROCESSING" else .stage "COMPLETE") m) = false) →
        wait_for_project_completion
          (fun n => if n = 0 then PollResult.stage "PROCESSING" else .stage "COMPLETE") 600 10 = false)) :=
  ⟨by decide,
   c3_wait_for_project_completion_outcomes
     (fun n => if n = 0 then PollResult.stage "PROCESSING" else .stage "COMPLETE")
     600 10 (by decide)⟩

/-! ## Claim C6 -/

/-- Replace every raised status check by a benign non-terminal stage
observation. -/
def swallowRaises (poll : Nat → PollResult) : Nat → PollResult := fun n =>
  match poll n with
  | .raises => .stage "PROCESSING"
  | r => r

theorem waitPoll_swallowRaises (poll : Nat → PollResult) (maxWait interval : Nat) :
    ∀ fuel n, waitPoll poll maxWait interval n fuel
      = waitPoll (swallowRaises poll) maxWait interval n fuel := by
  intro fuel
  induction fuel with
  | zero => intro n; rfl
  | succ fuel ih =>
    intro n
    unfold waitPoll
    by_cases hlt : n * interval < maxWait
    · simp only [hlt, if_true]
      cases hpoll : poll n with
      | stage s => simp only [swallowRaises, hpoll]; split <;> simp [ih]
      | raises =>
        simp only [swallowRaises, hpoll]
        have h1 : ¬ ("PROCESSING" = "COMPLETE") := by decide
        have h2 : ¬ ("PROCESSING" ∈ failStages) := by decide
        simp only [h1, if_false, h2, ite_false]
        exact ih (n + 1)
    · simp [hlt]

/-- Claim C6: an exception raised while checking job status is
swallowed and the task retries on the same fixed interval — the run is
indistinguishable from one in which those polls had returned a benign
non-terminal stage, so the task is never aborted, keeps polling, and
the timeout applies to elapsed polling time exactly as it does for
successful polls. -/
theorem c6_poll_exceptions_swallowed (poll : Nat → PollResult) (maxWait interval : Nat) :
    wait_for_project_completion poll maxWait interval
      = wait_for_project_completion (swallowRaises poll) maxWait interval :=
  waitPoll_swallowRaises poll maxWait interval (maxWait + 1) 0

/-! ## Claim C2 -/

/-- Claim C2: on the single-chapter input with summary `"s"` and lines
verbal `"a"`, visual `"b"`, verbal `"c"`, the plain extractor returns
exactly `"ac"` and the enhanced extractor returns exactly
`"[Visual: s] a [Visual: b] c"`. -/
theorem c2_extractor_concrete_example :
    get_verbal_transcript
      [⟨"s", [⟨some "verbal", "a"⟩, ⟨some "visual", "b"⟩, ⟨some "verbal", "c"⟩]⟩] = "ac"
    ∧ get_enhanced_transcript
      [⟨"s", [⟨some "verbal", "a"⟩, ⟨some "visual", "b"⟩, ⟨some "verbal", "c"⟩]⟩]
        = "[Visual: s] a [Visual: b] c" := by
  constructor <;> decide

/-! ## Lemmas about stripping and joining -/

theorem pyStripList_eq_nil_iff (l : List Char) :
    pyStripList l = [] ↔ ∀ c ∈ l, c.isWhitespace = true := by
  unfold pyStripList
  simp only [List.reverse_eq_nil_iff, List.dropWhile_eq_nil_iff, List.mem_reverse]
  constructor
  · intro h c hc
    have hsplit : l.takeWhile Char.isWhitespace ++ l.dropWhile Char.isWhitespace = l :=
      List.takeWhile_append_dropWhile Char.isWhitespace l
    rw [← hsplit] at hc
    rcases List.mem_append.1 hc with h1 | h2
    · exact List.mem_takeWhile_imp h1
    · exact h c h2
  · intro h c hc
    exact h c ((List.dropWhile_sublist Char.isWhitespace).subset hc)

theorem pyStrip_eq_empty_iff (s : String) :
    pyStrip s = "" ↔ ∀ c ∈ s.data, c.isWhitespace = true := by
  rw [← pyStripList_eq_nil_iff]
  constructor
  · intro h
    exact congrArg String.data h
  · intro h
    unfold pyStrip
    rw [h]

theorem dropWhile_head_false {α : Type} (p : α → Bool) :
    ∀ (l : List α) (a : α) (as : List α), l.dropWhile p = a :: as → p a = false := by
  intro l
  induction l with
  | nil => intro a as h; simp at h
  | cons x xs ih =>
    intro a as h
    rw [List.dropWhile_cons] at h
    split at h
    · exact ih a as h
    · rename_i hpx
      injection h with h1 _
      subst h1
      simpa using hpx

theorem exists_nonWS_mem_pyStripList (l : List Char) (h : pyStripList l ≠ []) :
    ∃ c ∈ pyStripList l, c.isWhitespace = false := by
  unfold pyStripList at *
  cases hdc : (l.dropWhile Char.isWhitespace).reverse.dropWhile Char.isWhitespace with
  | nil => rw [hdc] at h; simp at h
  | cons a as =>
    refine ⟨a, ?_, dropWhile_head_false Char.isWhitespace _ a as hdc⟩
    simp

theorem exists_nonWS_of_pyStrip_ne (s : String) (h : pyStrip s ≠ "") :
    ∃ c ∈ (pyStrip s).data, c.isWhitespace = false := by
  have hne : pyStripList s.data ≠ [] := by
    intro hnil
    apply h
    unfold pyStrip
    rw [hnil]
  exact exists_nonWS_mem_pyStripList s.data hne

theorem mem_data_pyJoin (sep : String) :
    ∀ (parts : List String) (p : String), p ∈ parts →
      ∀ c ∈ p.data, c ∈ (pyJoin sep parts).data := by
  intro parts
  induction parts with
  | nil => intro p hp; simp at hp
  | cons x xs ih =>
    intro p hp c hc
    cases xs with
    | nil =>
      simp only [List.mem_singleton] at hp
      subst hp
      exact hc
    | cons y ys =>
      rcases List.mem_cons.1 hp with rfl | hp'
      · simp only [pyJoin, String.data_append, List.mem_append]
        exact Or.inl (Or.inl hc)
      · simp only [pyJoin, String.data_append, List.mem_append]
        exact Or.inr (ih p hp' c hc)

theorem pyStrip_pyJoin_ne_empty (sep : String) (parts : List String) (p : String)
    (hp : p ∈ parts) (c : Char) (hc : c ∈ p.data) (hws : c.isWhitespace = false) :
    pyStrip (pyJoin sep parts) ≠ "" := by
  intro h
  have hall := (pyStrip_eq_empty_iff _).1 h
  have := hall c (mem_data_pyJoin sep parts p hp c hc)
  rw [hws] at this
  exact Bool.false_ne_true this

theorem bracket_mem_data (q : String) : '[' ∈ ("[Visual: " ++ q ++ "]").data := by
  simp only [String.data_append, List.mem_append]
  exact Or.inl (Or.inl (by decide))

theorem enhancedChapterParts_nonWS (ch : Chapter) (p : String)
    (hp : p ∈ enhancedChapterParts ch) :
    ∃ c ∈ p.data, c.isWhitespace = false := by
  unfold enhancedChapterParts at hp
  rcases List.mem_append.1 hp with h1 | h2
  · split at h1
    · simp only [List.mem_singleton] at h1
      subst h1
      exact ⟨'[', bracket_mem_data _, by decide⟩
    · simp at h1
  · rcases List.mem_filterMap.1 h2 with ⟨l, _, hfl⟩
    simp only at hfl
    by_cases hb : pyStrip l.content = ""
    · rw [if_pos hb] at hfl
      simp at hfl
    · rw [if_neg hb] at hfl
      by_cases hverb : l.type = some "verbal"
      · rw [if_pos hverb] at hfl
        injection hfl with hfl
        subst hfl
        exact exists_nonWS_of_pyStrip_ne l.content hb
      · rw [if_neg hverb] at hfl
        by_cases hvis : l.type = some "visual"
        · rw [if_pos hvis] at hfl
          injection hfl with hfl
          subst hfl
          exact ⟨'[', bracket_mem_data _, by decide⟩
        · rw [if_neg hvis] at hfl
          simp at hfl

/-- A truthy enhanced transcript (`if transcript:`) is still non-empty
after whitespace strip: every collected part carries a non-whitespace
character. -/
theorem pyStrip_get_enhanced_ne (chapters : List Chapter)
    (h : get_enhanced_transcript chapters ≠ "") :
    pyStrip (get_enhanced_transcript chapters) ≠ "" := by
  by_cases he : chapters.isEmpty
  · rw [get_enhanced_transcript, if_pos he] at h
    exact absurd rfl h
  · rw [get_enhanced_transcript, if_neg he] at h ⊢
    cases hparts : (chapters.map enhancedChapterParts).flatten with
    | nil => rw [hparts] at h; exact absurd rfl h
    | cons p ps =>
      have hp : p ∈ (chapters.map enhancedChapterParts).flatten := by
        rw [hparts]; exact List.mem_cons_self p ps
      rcases List.mem_flatten.1 hp with ⟨l, hl, hpl⟩
      rcases List.mem_map.1 hl with ⟨ch, _, hch⟩
      subst hch
      obtain ⟨c, hc, hws⟩ := enhancedChapterParts_nonWS ch p hpl
      exact pyStrip_pyJoin_ne_empty " " (p :: ps) p (List.mem_cons_self p ps) c hc hws

/-! ## Claim C10 -/

/-- Remove from a chapter every line whose content is blank after
strip. -/
def dropBlankLines (ch : Chapter) : Chapter :=
  { ch with lines := ch.lines.filter (fun l => pyStrip l.content ≠ "") }

/-- Replace a whitespace-only chapter summary by the empty summary. -/
def clearBlankSummary (ch : Chapter) : Chapter :=
  if pyStrip ch.summary = "" then { ch with summary := "" } else ch

theorem filterMap_filter_blank {f : Line → Option String}
    (hf : ∀ l, pyStrip l.content = "" → f l = none) (ls : List Line) :
    (ls.filter (fun l => pyStrip l.content ≠ "")).filterMap f = ls.filterMap f := by
  induction ls with
  | nil => rfl
  | cons l ls ih =>
    rw [List.filter_cons]
    split
    · rw [List.filterMap_cons, List.filterMap_cons, ih]
    · rename_i hdrop
      have hb : pyStrip l.content = "" := by simpa using hdrop
      rw [ih, List.filterMap_cons, hf l hb]

theorem verbalLine_blank (l : Line) (hb : pyStrip l.content = "") :
    (if l.type = some "verbal" then
        if pyStrip l.content ≠ "" then some (pyStrip l.content) else none
      else none) = none := by
  simp [hb]

theorem enhancedLine_blank (l : Line) (hb : pyStrip l.content = "") :
    (if pyStrip l.content = "" then none
      else if l.type = some "verbal" then some (pyStrip l.content)
      else if l.type = some "visual" then some ("[Visual: " ++ pyStrip l.content ++ "]")
      else none) = none := by
  simp [hb]

theorem verbalParts_dropBlankLines (chapters : List Chapter) :
    verbalParts (chapters.map dropBlankLines) = verbalParts chapters := by
  unfold verbalParts
  rw [List.map_map]
  congr 1
  apply List.map_congr_left
  intro ch _
  show (dropBlankLines ch).lines.filterMap _ = ch.lines.filterMap _
  exact filterMap_filter_blank (fun l hb => verbalLine_blank l hb) ch.lines

theorem enhancedChapterParts_dropBlankLines (ch : Chapter) :
    enhancedChapterParts (dropBlankLines ch) = enhancedChapterParts ch := by
  unfold enhancedChapterParts dropBlankLines
  congr 1
  exact filterMap_filter_blank (fun l hb => enhancedLine_blank l hb) ch.lines

theorem enhancedChapterParts_clearBlankSummary (ch : Chapter) :
    enhancedChapterParts (clearBlankSummary ch) = enhancedChapterParts ch := by
  unfold clearBlankSummary
  by_cases hb : pyStrip ch.summary = ""
  · rw [if_pos hb]
    unfold enhancedChapterParts
    have h0 : pyStrip "" = "" := rfl
    simp [h0, hb]
  · rw [if_neg hb]

theorem verbalParts_all_blank (chapters : List Chapter)
    (h : ∀ ch ∈ chapters, ∀ l ∈ ch.lines, pyStrip l.content = "") :
    verbalParts chapters = [] := by
  unfold verbalParts
  rw [List.flatten_eq_nil_iff]
  intro l hl
  rcases List.mem_map.1 hl with ⟨ch, hch, hcheq⟩
  subst hcheq
  rw [List.filterMap_eq_nil_iff]
  intro x hx
  exact verbalLine_blank x (h ch hch x hx)

theorem enhancedParts_all_blank (chapters : List Chapter)
    (h : ∀ ch ∈ chapters, ∀ l ∈ ch.lines, pyStrip l.content = "")
    (hs : ∀ ch ∈ chapters, pyStrip ch.summary = "") :
    (chapters.map enhancedChapterParts).flatten = [] := by
  rw [List.flatten_eq_nil_iff]
  intro l hl
  rcases List.mem_map.1 hl with ⟨ch, hch, hcheq⟩
  subst hcheq
  unfold enhancedChapterParts
  rw [if_neg (by simpa using hs ch hch)]
  rw [List.nil_append, List.filterMap_eq_nil_iff]
  intro x hx
  exact enhancedLine_blank x (h ch hch x hx)

/-- Claim C10: blank lines are skipped entirely by both extractors (no
text, no separator, no `[Visual: ...]` marker), a whitespace-only
chapter summary contributes no marker, and both extractors return the
empty string on an empty chapters list or on chapters containing only
blank lines. -/
theorem c10_blank_lines_summaries_skipped (chapters : List Chapter) :
    (get_verbal_transcript [] = "" ∧ get_enhanced_transcript [] = "")
    ∧ (get_verbal_transcript (chapters.map dropBlankLines) = get_verbal_transcript chapters
      ∧ get_enhanced_transcript (chapters.map dropBlankLines) = get_enhanced_transcript chapters
      ∧ get_enhanced_transcript (chapters.map clearBlankSummary) = get_enhanced_transcript chapters)
    ∧ ((∀ ch ∈ chapters, ∀ l ∈ ch.lines, pyStrip l.content = "") →
        get_verbal_transcript chapters = ""
        ∧ ((∀ ch ∈ chapters, pyStrip ch.summary = "") →
            get_enhanced_transcript chapters = "")) := by
  refine ⟨⟨rfl, rfl⟩, ⟨?_, ?_, ?_⟩, ?_⟩
  · unfold get_verbal_transcript
    rw [verbalParts_dropBlankLines]
    simp [List.isEmpty_iff]
  · unfold get_enhanced_transcript
    rw [List.map_map]
    have : chapters.map (enhancedChapterParts ∘ dropBlankLines) = chapters.map enhancedChapterParts :=
      List.map_congr_left (fun ch _ => enhancedChapterParts_dropBlankLines ch)
    rw [this]
    simp [List.isEmpty_iff]
  · unfold get_enhanced_transcript
    rw [List.map_map]
    have : chapters.map (enhancedChapterParts ∘ clearBlankSummary) = chapters.map enhancedChapterParts :=
      List.map_congr_left (fun ch _ => enhancedChapterParts_clearBlankSummary ch)
    rw [this]
    simp [List.isEmpty_iff]
  · intro hblank
    constructor
    · unfold get_verbal_transcript
      rw [verbalParts_all_blank chapters hblank]
      split <;> rfl
    · intro hsum
      unfold get_enhanced_transcript
      rw [enhancedParts_all_blank chapters hblank hsum]
      split <;> rfl

/-- Witness for C10: a chapter with a whitespace summary and one
whitespace verbal line yields the empty string in both modes. -/
theorem c10_blank_lines_summaries_skipped_witness :
    get_verbal_transcript [⟨" ", [⟨some "verbal", "  "⟩]⟩] = ""
    ∧ get_enhanced_transcript [⟨" ", [⟨some "verbal", "  "⟩]⟩] = "" :=
  ⟨((c10_blank_lines_summaries_skipped [⟨" ", [⟨some "verbal", "  "⟩]⟩]).2.2 (by decide)).1,
   ((c10_blank_lines_summaries_skipped [⟨" ", [⟨some "verbal", "  "⟩]⟩]).2.2 (by decide)).2 (by decide)⟩

/-! ## Claim C1 -/

theorem opusFallback_spec (video : VideoRec) (env : ExtractEnv)
    (h : pyStrip ((opusFallback video env).transcript.getD "") ≠ "") :
    (opusFallback video env).transcript_source = some "opusclip" := by
  unfold opusFallback at h ⊢
  split at h
  · split at h
    · rename_i hcond
      rw [if_pos hcond]
    · exact absurd rfl h
  · exact absurd rfl h

theorem runItem_spec (video : VideoRec) (r : ItemRun)
    (h : pyStrip ((runItem video r).transcript.getD "") ≠ "") :
    (runItem video r).transcript_source = some "tiktok_captions"
    ∨ (runItem video r).transcript_source = some "opusclip" := by
  cases r with
  | raises => exact absurd rfl h
  | runs env =>
    simp only [runItem] at h ⊢
    unfold extract_transcript at h ⊢
    split at h
    · rename_i hcap
      rw [if_pos hcap]
      split at h
      · split at h
        · rename_i hcond
          rw [if_pos hcond]
          exact Or.inl rfl
        · rename_i hcond
          rw [if_neg hcond]
          exact Or.inr (opusFallback_spec video env h)
      · exact Or.inr (opusFallback_spec video env h)
    · rename_i hcap
      rw [if_neg hcap]
      exact Or.inr (opusFallback_spec video env h)

theorem wait_and_extract_success (video : VideoRec) (st : VideoStatus) (run : WaitRun)
    (v : VideoRec) (st' : VideoStatus)
    (h : wait_and_extract video st run = (some v, st')) :
    pyStrip (v.transcript.getD "") ≠ "" ∧ v.transcript_source = some "opusclip" := by
  unfold wait_and_extract at h
  split at h
  · simp at h
  · split at h
    · simp [failStatus] at h
    · simp [failStatus] at h
    · split at h
      · simp [failStatus] at h
      · simp [failStatus] at h
      · split at h
        · simp [failStatus] at h
        · simp only [] at h
          split at h
          · rename_i hne
            rw [Prod.mk.injEq] at h
            obtain ⟨h1, _⟩ := h
            injection h1 with h1
            subst h1
            rename Screenplay => sp
            refine ⟨?_, rfl⟩
            show pyStrip (get_enhanced_transcript sp.chapters) ≠ ""
            exact pyStrip_get_enhanced_ne sp.chapters hne
          · simp [failStatus] at h

/-- Claim C1: every record in the final record set has non-empty
transcript text after whitespace trim and a provenance tag that is
either `'tiktok_captions'` or `'opusclip'`; failed records are excluded
from that set.  Stated for both pipelines: the hybrid extractor's
result list, and the row list the server pipeline hands to the CSV and
JSONL writers. -/
theorem c1_final_records_have_transcripts :
    (∀ (items : List (VideoRec × ItemRun)) (v : VideoRec),
      v ∈ extract_transcripts_parallel items →
        pyStrip (v.transcript.getD "") ≠ ""
        ∧ (v.transcript_source = some "tiktok_captions"
            ∨ v.transcript_source = some "opusclip"))
    ∧ (∀ (cfg : ProcessConfig) (env : ServerEnv) (rows : List CsvRow) (r : CsvRow),
      (process_videos cfg env).csvRows = some rows → r ∈ rows →
        pyStrip r.transcript ≠ ""
        ∧ (r.transcript_source = "tiktok_captions" ∨ r.transcript_source = "opusclip")) := by
  constructor
  · intro items v hv
    unfold extract_transcripts_parallel at hv
    rw [List.mem_filter] at hv
    obtain ⟨hmem, hpred⟩ := hv
    have hne : pyStrip (v.transcript.getD "") ≠ "" := of_decide_eq_true hpred
    refine ⟨hne, ?_⟩
    rcases List.mem_map.1 hmem with ⟨⟨video, r⟩, _, hvr⟩
    subst hvr
    exact runItem_spec video r hne
  · intro cfg env rows r hrows hr
    unfold process_videos at hrows
    split at hrows
    · simp [errorJob] at hrows
    · split at hrows
      · simp [errorJob] at hrows
      · split at hrows
        · simp [allDupJob] at hrows
        · unfold processSubmitted at hrows
          split at hrows
          · split at hrows <;> simp [errorJob] at hrows
          · simp only [completedJob, Option.some.injEq] at hrows
            subst hrows
            rcases List.mem_map.1 hr with ⟨v, hv, hveq⟩
            subst hveq
            rcases List.mem_filterMap.1 hv with ⟨pair, hpair, hsnd⟩
            rcases List.mem_map.1 hpair with ⟨video, _, hpeq⟩
            subst hpeq
            unfold processOne at hsnd
            split at hsnd
            rename_i st1 sub heq
            cases sub with
            | none => simp at hsnd
            | some v' =>
              obtain ⟨h1, h2⟩ := wait_and_extract_success v' st1
                (env.waitRun v'.video_id) v
                (wait_and_extract v' st1 (env.waitRun v'.video_id)).2
                (by rw [← hsnd])
              refine ⟨?_, Or.inr ?_⟩
              · show pyStrip (v.transcript.getD "") ≠ ""
                exact h1
              · show v.transcript_source.getD "unknown" = "opusclip"
                rw [h2]
                rfl

/-- A minimal parsed video record used for concrete witnesses. -/
def wVid : VideoRec :=
  { video_id := "v1", video_url := "u", description := "d", hashtags := []
    view_count := 0, like_count := 0, comment_count := 0, share_count := 0
    has_captions := true, duration := 0, create_time := 0
    transcript := none, transcript_source := none, project_id := none }

/-- Witness extractor input: one video whose captions fetch returns
`"hello"`. -/
def wItems : List (VideoRec × ItemRun) :=
  [(wVid, ItemRun.runs { captions := some "hello", opus := none })]

/-- Witness server environment: one video, successful submission, job
completes on the first poll, one clip with a one-line verbal
screenplay. -/
def wEnv : ServerEnv :=
  { apiKeyPresent := true
    parsedVideos := [wVid]
    existingIds := []
    submit := fun _ => .ok "P1"
    waitRun := fun _ =>
      { completed := .ok true
        clips := .ok [{ screenplay := some ⟨[⟨"", [⟨some "verbal", "hello"⟩]⟩]⟩ }] } }

/-- Witness server configuration. -/
def wCfg : ProcessConfig :=
  { videosToProcess := 0, batchSize := 10, parameterMode := "auto"
    language := "English", maxChar := 150, style := "" }

/-- The record the witness extractor run produces. -/
def wExtracted : VideoRec :=
  { wVid with transcript := some "hello", transcript_source := some "tiktok_captions" }

/-- The CSV row the witness server run produces. -/
def wRow : CsvRow :=
  prepare_row { wVid with project_id := some "P1", transcript := some "hello",
                          transcript_source := some "opusclip" }

/-- Witness for C1: a captions-sourced record in the extractor output
and an OpusClip-sourced row in the server run's CSV both satisfy the
invariant. -/
theorem c1_final_records_have_transcripts_witness :
    (pyStrip (wExtracted.transcript.getD "") ≠ ""
      ∧ (wExtracted.transcript_source = some "tiktok_captions"
          ∨ wExtracted.transcript_source = some "opusclip"))
    ∧ (pyStrip wRow.transcript ≠ ""
      ∧ (wRow.transcript_source = "tiktok_captions" ∨ wRow.transcript_source = "opusclip")) :=
  ⟨c1_final_records_have_transcripts.1 wItems wExtracted (by decide),
   c1_final_records_have_transcripts.2 wCfg wEnv [wRow] wRow (by decide) (by decide)⟩

/-! ## Claim C4 -/

/-- Whether a `submit_project` call yielded a job handle. -/
def submitSucceeded : SubmitOutcome → Bool
  | .ok _ => true
  | .noId => false
  | .raises _ => false

theorem submitStage_none_of_failed (env : ServerEnv) (v : VideoRec)
    (h : submitSucceeded (env.submit v.video_id) = false) :
    (submitStage env v).2 = none := by
  unfold submitStage
  cases hs : env.submit v.video_id with
  | ok pid => rw [hs] at h; simp [submitSucceeded] at h
  | noId => rfl
  | raises msg => rfl

theorem processOne_none_of_failed (env : ServerEnv) (v : VideoRec)
    (h : submitSucceeded (env.submit v.video_id) = false) :
    (processOne env v).2 = none := by
  unfold processOne
  have hsub := submitStage_none_of_failed env v h
  rcases hss : submitStage env v with ⟨st1, sub⟩
  rw [hss] at hsub
  simp only at hsub
  subst hsub
  rfl

/-- Claim C4: a run in which no submission succeeds terminates in the
fatal error state with a surfaced error message and produces no CSV or
JSONL artifacts — for the server pipeline (first conjunct) and for the
CLI pipeline (second conjunct, where the failed run returns the empty
path and writes nothing). -/
theorem c4_zero_submissions_fatal :
    (∀ (cfg : ProcessConfig) (env : ServerEnv),
      ¬ (newVideos env (limitVideos cfg env.parsedVideos)).isEmpty →
      (∀ v ∈ newVideos env (limitVideos cfg env.parsedVideos),
        submitSucceeded (env.submit v.video_id) = false) →
      (process_videos cfg env).status = "error"
      ∧ (∃ msg, (process_videos cfg env).error = some msg)
      ∧ (process_videos cfg env).csvRows = none
      ∧ (process_videos cfg env).jsonlCount = none
      ∧ (process_videos cfg env).csvFilename = none
      ∧ (process_videos cfg env).jsonlFilename = none
      ∧ (env.apiKeyPresent = true →
          (process_videos cfg env).error = some "No projects submitted successfully"))
    ∧ (∀ (count : Option Nat) (env : MainEnv),
      (∀ v ∈ mainLimit count (process_json_file env.doc),
        submitSucceeded (env.submit v.video_id) = false) →
      process_videos_with_opusclip env (mainLimit count (process_json_file env.doc)) = []
      ∧ main_process_json_file count env =
          { csvPath := "", csvRows := none, jsonlCount := none }) := by
  constructor
  · intro cfg env hne hfail
    by_cases hkey : (!env.apiKeyPresent) = true
    · have hjob : process_videos cfg env =
          errorJob 0 [] "OPUSCLIP_API_KEY not found in environment variables" := by
        unfold process_videos
        rw [if_pos hkey]
      rw [hjob]
      refine ⟨rfl, ⟨_, rfl⟩, rfl, rfl, rfl, rfl, ?_⟩
      intro hk
      rw [hk] at hkey
      simp at hkey
    · have hvid : ¬ env.parsedVideos.isEmpty = true := by
        intro he
        apply hne
        unfold newVideos limitVideos
        rcases List.isEmpty_iff.1 he with h0
        rw [h0]
        simp
      have hsubs : ∀ v ∈ newVideos env (limitVideos cfg env.parsedVideos),
          (processOne env v).2 = none :=
        fun v hv => processOne_none_of_failed env v (hfail v hv)
      have hempty : ((newVideos env (limitVideos cfg env.parsedVideos)).map
          (processOne env)).filterMap Prod.snd = [] := by
        rw [List.filterMap_eq_nil_iff]
        intro p hp
        rcases List.mem_map.1 hp with ⟨v, hv, hveq⟩
        subst hveq
        exact hsubs v hv
      have hempty2 : (newVideos env (limitVideos cfg env.parsedVideos)).filterMap
          (fun v => (submitStage env v).2) = [] := by
        rw [List.filterMap_eq_nil_iff]
        intro v hv
        exact submitStage_none_of_failed env v (hfail v hv)
      have hjob : process_videos cfg env =
          errorJob 15 (((newVideos env (limitVideos cfg env.parsedVideos)).map
            (processOne env)).map Prod.fst) "No projects submitted successfully" := by
        unfold process_videos
        rw [if_neg hkey, if_neg hvid, if_neg hne]
        unfold processSubmitted
        rw [hempty, hempty2]
        simp
      rw [hjob]
      exact ⟨rfl, ⟨_, rfl⟩, rfl, rfl, rfl, rfl, fun _ => rfl⟩
  · intro count env hfail
    have hsubs : mainSubmissions env (mainLimit count (process_json_file env.doc)) = [] := by
      unfold mainSubmissions
      rw [List.filterMap_eq_nil_iff]
      intro v hv
      cases hs : env.submit v.video_id with
      | ok pid =>
        have := hfail v hv
        rw [hs] at this
        simp [submitSucceeded] at this
      | noId => rfl
      | raises msg => rfl
    have hproc : process_videos_with_opusclip env
        (mainLimit count (process_json_file env.doc)) = [] := by
      unfold process_videos_with_opusclip
      rw [hsubs]
      rfl
    refine ⟨hproc, ?_⟩
    unfold main_process_json_file
    by_cases hv0 : (process_json_file env.doc).isEmpty = true
    · rw [if_pos hv0]
    · rw [if_neg hv0, if_pos (by rw [hproc]; rfl)]

/-- A server environment whose single video always fails submission,
and a CLI environment over a one-item document whose submission always
fails. -/
def wEnvNoSubmit : ServerEnv :=
  { wEnv with submit := fun _ => .noId }

/-- A one-item raw document for the CLI witness. -/
def wDoc : RawDoc :=
  { itemList := some [{ id := some "7234567890123456789", authorUniqueId := some "u"
                        desc := "d", textExtra := [], contents := [], challenges := []
                        stats := { playCount := some 5, diggCount := none,
                                   commentCount := none, shareCount := none }
                        video := { subtitleInfos := [], duration := some 10 }
                        createTime := none }]
    dataItemList := none, fallbackIds := [] }

/-- The CLI witness environment. -/
def wMainEnv : MainEnv :=
  { doc := some wDoc, channelName := "creator"
    submit := fun _ => .raises "boom"
    waitRun := fun _ => { completed := .ok true, clips := .ok [] } }

/-- Witness for C4: with one new video and a failing submission, the
server run errors with no artifacts and the CLI run returns the empty
path with no artifacts. -/
theorem c4_zero_submissions_fatal_witness :
    ((process_videos wCfg wEnvNoSubmit).status = "error"
      ∧ (∃ msg, (process_videos wCfg wEnvNoSubmit).error = some msg)
      ∧ (process_videos wCfg wEnvNoSubmit).csvRows = none
      ∧ (process_videos wCfg wEnvNoSubmit).jsonlCount = none
      ∧ (process_videos wCfg wEnvNoSubmit).csvFilename = none
      ∧ (process_videos wCfg wEnvNoSubmit).jsonlFilename = none
      ∧ (wEnvNoSubmit.apiKeyPresent = true →
          (process_videos wCfg wEnvNoSubmit).error = some "No projects submitted successfully"))
    ∧ (process_videos_with_opusclip wMainEnv
          (mainLimit none (process_json_file wMainEnv.doc)) = []
      ∧ main_process_json_file none wMainEnv =
          { csvPath := "", csvRows := none, jsonlCount := none }) :=
  ⟨c4_zero_submissions_fatal.1 wCfg wEnvNoSubmit (by decide) (by decide),
   c4_zero_submissions_fatal.2 none wMainEnv (by decide)⟩

/-! ## Claim C9 -/

theorem process_videos_error_form (cfg : ProcessConfig) (env : ServerEnv)
    (h : (process_videos cfg env).status = "error") :
    ∃ p vs msg, process_videos cfg env = errorJob p vs msg := by
  by_cases h1 : (!env.apiKeyPresent) = true
  · exact ⟨0, [], _, by unfold process_videos; rw [if_pos h1]⟩
  · by_cases h2 : env.parsedVideos.isEmpty = true
    · exact ⟨5, [], _, by unfold process_videos; rw [if_neg h1, if_pos h2]⟩
    · by_cases h3 : (newVideos env (limitVideos cfg env.parsedVideos)).isEmpty = true
      · exfalso
        unfold process_videos at h
        rw [if_neg h1, if_neg h2, if_pos h3] at h
        simp [allDupJob] at h
      · have hps : process_videos cfg env =
            processSubmitted env (newVideos env (limitVideos cfg env.parsedVideos))
              (skippedVideos env (limitVideos cfg env.parsedVideos)).length := by
          unfold process_videos
          rw [if_neg h1, if_neg h2, if_neg h3]
        rw [hps] at h ⊢
        unfold processSubmitted at h ⊢
        by_cases h4 : (((newVideos env (limitVideos cfg env.parsedVideos)).map
            (processOne env)).filterMap Prod.snd).isEmpty = true
        · rw [if_pos h4] at h ⊢
          by_cases h5 : ((newVideos env (limitVideos cfg env.parsedVideos)).filterMap
              (fun v => (submitStage env v).2)).isEmpty = true
          · rw [if_pos h5]
            exact ⟨_, _, _, rfl⟩
          · rw [if_neg h5]
            exact ⟨_, _, _, rfl⟩
        · exfalso
          rw [if_neg h4] at h
          simp [completedJob] at h

/-- Claim C9: whenever a run terminates in the error state, the
progress snapshot handed to the caller carries a human-readable error
description (the phase label `"Error: " ++ msg`, where `msg` is the
stored error message) together with the per-item statuses and the
aggregate progress of the job. -/
theorem c9_error_snapshot_has_message (cfg : ProcessConfig) (env : ServerEnv)
    (h : (process_videos cfg env).status = "error") :
    ∃ msg, (process_videos cfg env).error = some msg
      ∧ (get_progress (process_videos cfg env)).currentPhase = "Error: " ++ msg
      ∧ (get_progress (process_videos cfg env)).status = "error"
      ∧ (get_progress (process_videos cfg env)).videos = (process_videos cfg env).videos
      ∧ (get_progress (process_videos cfg env)).progress
          = (process_videos cfg env).progress
      ∧ (get_progress (process_videos cfg env)).summary
          = (process_videos cfg env).summary := by
  obtain ⟨p, vs, msg, heq⟩ := process_videos_error_form cfg env h
  rw [heq]
  exact ⟨msg, rfl, rfl, rfl, rfl, rfl, rfl⟩

/-- A server environment with no parsed videos, whose run errors. -/
def wEnvNoVideos : ServerEnv :=
  { wEnv with parsedVideos := [] }

/-- Witness for C9: the empty-input run errors, and the theorem
exhibits its surfaced message. -/
theorem c9_error_snapshot_has_message_witness :
    ∃ msg, (process_videos wCfg wEnvNoVideos).error = some msg
      ∧ (get_progress (process_videos wCfg wEnvNoVideos)).currentPhase = "Error: " ++ msg
      ∧ (get_progress (process_videos wCfg wEnvNoVideos)).status = "error"
      ∧ (get_progress (process_videos wCfg wEnvNoVideos)).videos
          = (process_videos wCfg wEnvNoVideos).videos
      ∧ (get_progress (process_videos wCfg wEnvNoVideos)).progress
          = (process_videos wCfg wEnvNoVideos).progress
      ∧ (get_progress (process_videos wCfg wEnvNoVideos)).summary
          = (process_videos wCfg wEnvNoVideos).summary :=
  c9_error_snapshot_has_message wCfg wEnvNoVideos (by decide)

/-! ## Claim C7 -/

/-- One of the ten fresh records of the C7 scenario. -/
def c7vid (i : Nat) : VideoRec :=
  { video_id := "v" ++ toString i, video_url := "u" ++ toString i
    description := "", hashtags := []
    view_count := 0, like_count := 0, comment_count := 0, share_count := 0
    has_captions := false, duration := 0, create_time := 0
    transcript := none, transcript_source := none, project_id := none }

/-- The C7 scenario: ten new records, of which `v1 v2 v3` fail at
submission, `v4 v5` time out during polling, and `v6 … v10` succeed. -/
def c7env : ServerEnv :=
  { apiKeyPresent := true
    parsedVideos := [c7vid 1, c7vid 2, c7vid 3, c7vid 4, c7vid 5,
                     c7vid 6, c7vid 7, c7vid 8, c7vid 9, c7vid 10]
    existingIds := []
    submit := fun vid =>
      if vid = "v1" ∨ vid = "v2" ∨ vid = "v3" then .noId else .ok ("P" ++ vid)
    waitRun := fun vid =>
      if vid = "v4" ∨ vid = "v5" then { completed := .ok false, clips := .ok [] }
      else { completed := .ok true
             clips := .ok [{ screenplay := some ⟨[⟨"", [⟨some "verbal", "hello"⟩]⟩]⟩ }] } }

/-- Claim C7: in the 3-submission-failure / 2-timeout / 5-success run,
the final summary reports `processed = 5` and `skipped = 0` (the
skipped count covers only dedup-excluded records), and each of the five
failed items appears individually in the per-item status list with a
reason distinguishing submission failures (`submission` step failed,
`'Failed to submit'`) from polling timeouts (`transcript` step failed,
`'Timeout waiting for OpusClip'`). -/
theorem c7_summary_counts_and_failure_reasons :
    (process_videos wCfg c7env).summary =
      some { processed := 5, skipped := 0, trainingExamples := some 5 }
    ∧ (process_videos wCfg c7env).videos.length = 10
    ∧ (((process_videos wCfg c7env).videos.filter
          (fun st => st.status = "failed")).map
        (fun st => (st.id, st.currentStep, st.steps.submission, st.steps.transcript)))
      = [("v1", some "Failed to submit", "failed", "pending"),
         ("v2", some "Failed to submit", "failed", "pending"),
         ("v3", some "Failed to submit", "failed", "pending"),
         ("v4", some "Timeout waiting for OpusClip", "completed", "failed"),
         ("v5", some "Timeout waiting for OpusClip", "completed", "failed")]
    ∧ (((process_videos wCfg c7env).videos.filter
          (fun st => st.status = "completed")).map (fun st => st.id))
      = ["v6", "v7", "v8", "v9", "v10"] := by
  refine ⟨?_, ?_, ?_, ?_⟩ <;> decide

/-! ## Lemmas about the stable sort and the dedup pass -/

theorem insertDesc_perm (v : VideoRec) (l : List VideoRec) :
    (insertDesc v l).Perm (v :: l) := by
  induction l with
  | nil => exact List.Perm.refl _
  | cons u us ih =>
    unfold insertDesc
    split
    · exact (ih.cons u).trans (List.Perm.swap v u us)
    · exact List.Perm.refl _

theorem sortByViewDesc_perm (l : List VideoRec) :
    (sortByViewDesc l).Perm l := by
  induction l with
  | nil => exact List.Perm.refl _
  | cons v vs ih =>
    exact (insertDesc_perm v (sortByViewDesc vs)).trans (ih.cons v)

theorem pairwise_insertDesc (v : VideoRec) (l : List VideoRec)
    (h : List.Pairwise (fun a b => b.view_count ≤ a.view_count) l) :
    List.Pairwise (fun a b => b.view_count ≤ a.view_count) (insertDesc v l) := by
  induction l with
  | nil => exact List.pairwise_singleton _ v
  | cons u us ih =>
    rcases List.pairwise_cons.1 h with ⟨hu, hus⟩
    unfold insertDesc
    split
    · rename_i hlt
      rw [List.pairwise_cons]
      refine ⟨?_, ih hus⟩
      intro y hy
      rcases List.mem_cons.1 ((insertDesc_perm v us).mem_iff.1 hy) with rfl | hy'
      · exact le_of_lt hlt
      · exact hu y hy'
    · rename_i hnlt
      have hle : u.view_count ≤ v.view_count := le_of_not_lt hnlt
      rw [List.pairwise_cons]
      constructor
      · intro y hy
        rcases List.mem_cons.1 hy with rfl | hy'
        · exact hle
        · exact le_trans (hu y hy') hle
      · exact h

theorem pairwise_sortByViewDesc (l : List VideoRec) :
    List.Pairwise (fun a b => b.view_count ≤ a.view_count) (sortByViewDesc l) := by
  induction l with
  | nil => exact List.Pairwise.nil
  | cons v vs ih => exact pairwise_insertDesc v (sortByViewDesc vs) ih

theorem mem_dedupFirst (vs : List VideoRec) (v : VideoRec) : ∀ (seen : List String),
    v ∈ dedupFirst seen vs ↔
      (v.video_id ≠ "" ∧ v.video_id ∉ seen
        ∧ ∃ pre post, vs = pre ++ v :: post ∧ ∀ u ∈ pre, u.video_id ≠ v.video_id) := by
  induction vs with
  | nil =>
    intro seen
    constructor
    · intro h; simp [dedupFirst] at h
    · rintro ⟨_, _, pre, post, habs, _⟩
      cases pre <;> simp at habs
  | cons u vs ih =>
    intro seen
    unfold dedupFirst
    by_cases hcond : u.video_id ≠ "" ∧ u.video_id ∉ seen
    · rw [if_pos hcond]
      constructor
      · intro hmem
        rcases List.mem_cons.1 hmem with rfl | hmem'
        · exact ⟨hcond.1, hcond.2, [], vs, rfl, by simp⟩
        · obtain ⟨h1, h2, pre, post, heq, hpre⟩ := (ih _).1 hmem'
          have h2' : v.video_id ∉ seen := fun hs => h2 (List.mem_cons_of_mem _ hs)
          have hne : u.video_id ≠ v.video_id := by
            intro he
            exact h2 (by rw [← he]; exact List.mem_cons_self _ _)
          refine ⟨h1, h2', u :: pre, post, by rw [heq, List.cons_append], ?_⟩
          intro w hw
          rcases List.mem_cons.1 hw with rfl | hw'
          · exact hne
          · exact hpre w hw'
      · rintro ⟨h1, h2, pre, post, heq, hpre⟩
        cases pre with
        | nil =>
          injection heq with he1 _
          rw [he1]
          exact List.mem_cons_self _ _
        | cons w pre' =>
          injection heq with he1 he2
          subst he1
          refine List.mem_cons_of_mem _ ((ih _).2 ⟨h1, ?_, pre', post, he2, ?_⟩)
          · intro hmem
            rcases List.mem_cons.1 hmem with he | hs
            · exact hpre u (List.mem_cons_self _ _) he.symm
            · exact h2 hs
          · intro x hx
            exact hpre x (List.mem_cons_of_mem _ hx)
    · rw [if_neg hcond]
      rw [ih]
      constructor
      · rintro ⟨h1, h2, pre, post, heq, hpre⟩
        refine ⟨h1, h2, u :: pre, post, by rw [heq, List.cons_append], ?_⟩
        intro w hw
        rcases List.mem_cons.1 hw with rfl | hw'
        · intro he
          apply hcond
          rw [he]
          exact ⟨h1, h2⟩
        · exact hpre w hw'
      · rintro ⟨h1, h2, pre, post, heq, hpre⟩
        cases pre with
        | nil =>
          exfalso
          injection heq with he1 _
          exact hcond (he1 ▸ ⟨h1, h2⟩)
        | cons w pre' =>
          injection heq with he1 he2
          subst he1
          refine ⟨h1, h2, pre', post, he2, ?_⟩
          intro x hx
          exact hpre x (List.mem_cons_of_mem _ hx)

theorem dedupFirst_ids_not_mem_seen (vs : List VideoRec) : ∀ (seen : List String),
    ∀ s ∈ (dedupFirst seen vs).map VideoRec.video_id, s ∉ seen := by
  induction vs with
  | nil => intro seen s hs; simp [dedupFirst] at hs
  | cons u vs ih =>
    intro seen s hs
    unfold dedupFirst at hs
    split at hs
    · rename_i hcond
      rcases List.mem_cons.1 hs with rfl | hs'
      · exact hcond.2
      · intro hmem
        exact ih (u.video_id :: seen) s hs' (List.mem_cons_of_mem _ hmem)
    · exact ih seen s hs

theorem dedupFirst_ids_nodup (vs : List VideoRec) : ∀ (seen : List String),
    ((dedupFirst seen vs).map VideoRec.video_id).Nodup := by
  induction vs with
  | nil => intro seen; simp [dedupFirst]
  | cons u vs ih =>
    intro seen
    unfold dedupFirst
    split
    · rw [List.map_cons, List.nodup_cons]
      refine ⟨?_, ih _⟩
      intro hmem
      exact dedupFirst_ids_not_mem_seen vs (u.video_id :: seen) u.video_id hmem
        (List.mem_cons_self _ _)
    · exact ih seen

theorem dedupFirst_ids_toFinset (vs : List VideoRec) : ∀ (seen : List String),
    ((dedupFirst seen vs).map VideoRec.video_id).toFinset
      = ((vs.map VideoRec.video_id).filter
          (fun s => decide (s ≠ "" ∧ s ∉ seen))).toFinset := by
  induction vs with
  | nil => intro seen; rfl
  | cons u vs ih =>
    intro seen
    unfold dedupFirst
    split
    · rename_i hcond
      rw [List.map_cons, List.map_cons, List.toFinset_cons, ih (u.video_id :: seen),
        List.filter_cons, if_pos (by simpa using hcond), List.toFinset_cons]
      ext x
      simp only [Finset.mem_insert, List.mem_toFinset, List.mem_filter,
        decide_eq_true_eq, List.mem_cons, not_or]
      constructor
      · rintro (rfl | ⟨hx, hx1, hx2, hx3⟩)
        · exact Or.inl rfl
        · exact Or.inr ⟨hx, hx1, hx3⟩
      · rintro (rfl | ⟨hx, hx1, hx3⟩)
        · exact Or.inl rfl
        · by_cases hxu : x = u.video_id
          · exact Or.inl hxu
          · exact Or.inr ⟨hx, hx1, hxu, hx3⟩
    · rename_i hcond
      rw [List.map_cons, List.filter_cons, if_neg (by simpa using hcond)]
      exact ih seen

theorem dedupFirst_length (vs : List VideoRec) :
    (dedupFirst [] vs).length
      = ((vs.map VideoRec.video_id).filter (fun s => s ≠ "")).toFinset.card := by
  have h1 : (dedupFirst [] vs).length
      = ((dedupFirst [] vs).map VideoRec.video_id).length :=
    (List.length_map _ _).symm
  rw [h1, ← List.toFinset_card_of_nodup (dedupFirst_ids_nodup vs []),
    dedupFirst_ids_toFinset vs []]
  have hfe : (vs.map VideoRec.video_id).filter (fun s => decide (s ≠ "" ∧ s ∉ ([] : List String)))
      = (vs.map VideoRec.video_id).filter (fun s => decide (s ≠ "")) := by
    apply List.filter_congr
    intro s _
    simp
  rw [hfe]

/-! ## Claim C5 -/

/-- The number of distinct identifiers among the raw items (the
identifier of an item with no `id` key is the empty string, as in
`str(item.get('id', ''))`). -/
def distinctIdCount (items : List RawItem) : Nat :=
  (items.map (fun it => it.id.getD "")).toFinset.card

/-- The number of distinct non-empty identifiers among the raw items. -/
def distinctNonemptyIdCount (items : List RawItem) : Nat :=
  ((items.map (fun it => it.id.getD "")).filter (fun s => s ≠ "")).toFinset.card

/-- A raw item carrying no identifier. -/
def c5item : RawItem :=
  { id := none, authorUniqueId := none, desc := "", textExtra := []
    contents := [], challenges := []
    stats := { playCount := some 5, diggCount := none, commentCount := none,
               shareCount := none }
    video := { subtitleInfos := [], duration := none }
    createTime := none }

/-- A document whose item list is the single identifier-less item. -/
def c5doc : RawDoc :=
  { itemList := some [c5item], dataItemList := none, fallbackIds := [] }

/-- Counterexample to C5 as stated: a document parses one raw item (so
it has one distinct identifier, the empty string), yet the processed
output is empty — the dedup loop drops records whose identifier is
empty, so the output size is not the number of distinct identifiers. -/
theorem c5_counterexample :
    parse_video_metadata c5doc = [parse_item c5item]
    ∧ distinctIdCount [c5item] = 1
    ∧ process_json_file (some c5doc) = [] := by
  refine ⟨?_, ?_, ?_⟩ <;> decide

theorem ids_map_parse_item (items : List RawItem) :
    (items.map parse_item).map VideoRec.video_id
      = items.map (fun it => it.id.getD "") := by
  rw [List.map_map]
  rfl

theorem process_json_file_located (doc : RawDoc) (items : List RawItem)
    (hloc : locatedItemList doc = some items) (hne : items ≠ []) :
    process_json_file (some doc)
      = sortByViewDesc (dedupFirst [] (items.map parse_item)) := by
  have hpm : parse_video_metadata doc = items.map parse_item := by
    unfold parse_video_metadata
    rw [hloc]
    show (if items.isEmpty = true then fallbackRecords doc else items.map parse_item)
      = items.map parse_item
    rw [if_neg (by simpa [List.isEmpty_iff] using hne)]
  show (if (parse_video_metadata doc).isEmpty = true then []
    else sortByViewDesc (dedupFirst [] (parse_video_metadata doc)))
      = sortByViewDesc (dedupFirst [] (items.map parse_item))
  rw [hpm]
  rw [if_neg (by simp [List.isEmpty_iff, hne])]

/-- Claim C5 (amended): for a document whose located item list is a
non-empty `items`, the Normalizer output has exactly as many records as
there are distinct NON-EMPTY identifiers among the parsed items (items
whose identifier is missing or empty are dropped by the dedup pass),
its members are exactly the first occurrences of each kept identifier,
and it is sorted in descending order of view count. -/
theorem c5_dedup_sort_normalizer (doc : RawDoc) (items : List RawItem)
    (hloc : locatedItemList doc = some items) (hne : items ≠ []) :
    (process_json_file (some doc)).length = distinctNonemptyIdCount items
    ∧ (∀ v, v ∈ process_json_file (some doc) ↔
        (v.video_id ≠ "" ∧ ∃ pre post,
          items.map parse_item = pre ++ v :: post
          ∧ ∀ u ∈ pre, u.video_id ≠ v.video_id))
    ∧ List.Pairwise (fun a b => b.view_count ≤ a.view_count)
        (process_json_file (some doc)) := by
  rw [process_json_file_located doc items hloc hne]
  refine ⟨?_, ?_, ?_⟩
  · rw [(sortByViewDesc_perm _).length_eq, dedupFirst_length,
      ids_map_parse_item, distinctNonemptyIdCount]
  · intro v
    rw [(sortByViewDesc_perm _).mem_iff, mem_dedupFirst]
    simp only [List.not_mem_nil, not_false_iff, true_and]
  · exact pairwise_sortByViewDesc _

/-- Witness items for the amended C5: three items, two sharing the
identifier `"a-id"` with different view counts, one with `"b-id"`. -/
def c5witnessItem (i : String) (views : Int) : RawItem :=
  { id := some i, authorUniqueId := some "u", desc := "", textExtra := []
    contents := [], challenges := []
    stats := { playCount := some views, diggCount := none, commentCount := none,
               shareCount := none }
    video := { subtitleInfos := [], duration := none }
    createTime := none }

/-- Witness document for the amended C5. -/
def c5wdoc : RawDoc :=
  { itemList := some [c5witnessItem "a-id" 3, c5witnessItem "b-id" 7, c5witnessItem "a-id" 9]
    dataItemList := none, fallbackIds := [] }

/-- Witness for the amended C5: on the three-item document the output
has the two distinct identifiers, keeps the first `"a-id"` occurrence,
and is sorted descending by view count. -/
theorem c5_dedup_sort_normalizer_witness :
    (process_json_file (some c5wdoc)).length
        = distinctNonemptyIdCount [c5witnessItem "a-id" 3, c5witnessItem "b-id" 7, c5witnessItem "a-id" 9]
    ∧ (∀ v, v ∈ process_json_file (some c5wdoc) ↔
        (v.video_id ≠ "" ∧ ∃ pre post,
          [c5witnessItem "a-id" 3, c5witnessItem "b-id" 7, c5witnessItem "a-id" 9].map parse_item
            = pre ++ v :: post
          ∧ ∀ u ∈ pre, u.video_id ≠ v.video_id))
    ∧ List.Pairwise (fun a b => b.view_count ≤ a.view_count)
        (process_json_file (some c5wdoc)) :=
  c5_dedup_sort_normalizer c5wdoc
    [c5witnessItem "a-id" 3, c5witnessItem "b-id" 7, c5witnessItem "a-id" 9]
    rfl (by decide)

end BrandVoice
